import Mathlib

/-!
Verification of `libratemon_interp.cpp` (cmu-snap/rwnd).

Shallow embedding of the interposition library `src/ratemon/runtime/libratemon_interp.cpp`:
the flow registry (`fd_to_flow`), the two FIFO queues (`active_fds_queue`,
`paused_fds_queue`), the kernel RWND map (`flow_to_rwnd`), the scheduler loop body
(`thread_func`), and the intercepted `accept` and `close` entry points.

Queues are lists with the front at the head (`push` appends at the tail, `pop`
drops the head).  The concurrent flat map `fd_to_flow` and the kernel map
`flow_to_rwnd` are association lists with unique keys.  External OS calls
(`dlsym`, the real `accept`/`close`, `setsockopt`, `getsockopt`, `getsockname`,
`getpeername`, the BPF skeleton open) are supplied as oracle values in an
environment record; kernel-visible side effects (map upserts/deletes, ACK
triggers, BPF-open attempts) are recorded in an event trace.
-/

/-- The `rm_flow` four-tuple (struct in ratemon.h, filled at
  libratemon_interp.cpp lines 254-257). -/
structure RmFlow where
  local_addr : Nat
  remote_addr : Nat
  local_port : Nat
  remote_port : Nat
deriving DecidableEq, Repr

/-- Observable side effects at the kernel / socket interface. -/
inductive Event where
  /-- the call `bpf_map_update_elem(flow_to_rwnd_fd, &flow, &zero, BPF_ANY)` -/
  | upsert (f : RmFlow) (v : Nat)
  /-- the call `bpf_map_delete_elem(flow_to_rwnd_fd, &flow)` -/
  | kdelete (f : RmFlow)
  /-- the call `trigger_ack(fd)` -/
  | ack (fd : Int)
  /-- an execution of the BPF setup block (`ratemon_maps_bpf__open_and_load`) -/
  | openAttempt
deriving DecidableEq, Repr

/-- Does the registry association list contain key `fd`?
  (`fd_to_flow.visit(fd, ...)` returning nonzero). -/
def regContains (r : List (Int × RmFlow)) (fd : Int) : Bool :=
  r.any (fun p => p.1 == fd)

/-- Point lookup in the registry (`visit` exposing the mapped flow). -/
def regLookup (r : List (Int × RmFlow)) (fd : Int) : Option RmFlow :=
  match r.find? (fun p => p.1 == fd) with
  | some p => some p.2
  | none => none

/-- Registration, `fd_to_flow.insert`: boost `concurrent_flat_map::insert`
  inserts only if the key is absent (first registration wins). -/
def regInsert (r : List (Int × RmFlow)) (fd : Int) (fl : RmFlow) :
    List (Int × RmFlow) :=
  if regContains r fd then r else r ++ [(fd, fl)]

/-- Removal, `fd_to_flow.erase(fd)`: removes the entry if present, else no-op. -/
def regErase (r : List (Int × RmFlow)) (fd : Int) : List (Int × RmFlow) :=
  r.filter (fun p => p.1 != fd)

/-- Upsert into the kernel map (`bpf_map_update_elem` with `BPF_ANY`). -/
def kmapUpsert (m : List (RmFlow × Nat)) (f : RmFlow) (v : Nat) :
    List (RmFlow × Nat) :=
  if m.any (fun p => p.1 == f) then
    m.map (fun p => if p.1 == f then (p.1, v) else p)
  else m ++ [(f, v)]

/-- Delete from the kernel map (`bpf_map_delete_elem`). -/
def kmapDelete (m : List (RmFlow × Nat)) (f : RmFlow) : List (RmFlow × Nat) :=
  m.filter (fun p => p.1 != f)

/-- Process-wide configuration, read once from the environment
  (`max_active_flows`, `epoch_us`, lines 52-56). -/
structure Config where
  max_active_flows : Nat
  epoch_us : Nat
deriving DecidableEq, Repr

/-- The mutable global state of libratemon_interp: the `setup` and
  `skipped_first` flags, both FIFO queues (head = front), the registry
  `fd_to_flow` and the kernel map `flow_to_rwnd`. -/
structure RmState where
  setup : Bool
  skipped_first : Bool
  active_fds_queue : List Int
  paused_fds_queue : List Int
  fd_to_flow : List (Int × RmFlow)
  flow_to_rwnd : List (RmFlow × Nat)
deriving DecidableEq, Repr

/-- The state at process start: flags clear, queues and maps empty. -/
def initState : RmState :=
  { setup := false
    skipped_first := false
    active_fds_queue := []
    paused_fds_queue := []
    fd_to_flow := []
    flow_to_rwnd := [] }

/-- The paused-queue scan of `thread_func` (lines 104-113), fuel-indexed:

      while (!paused_fds_queue.empty() and
             new_active_fds.size() < max_active_flows) {
        int next_fd = paused_fds_queue.front();
        if (fd_to_flow.visit(next_fd, [](const auto &) {})) {
          paused_fds_queue.pop();
          new_active_fds.push_back(next_fd);
        }
      }

  Note that when the front fd is not registered, the loop body changes
  nothing, so the C++ loop spins forever; `none` reports fuel exhaustion. -/
def selectLoop (reg : List (Int × RmFlow)) (m : Nat) :
    Nat → List Int → List Int → Option (List Int × List Int)
  | _, [], sel => some ([], sel)
  | fuel, fd :: rest, sel =>
    if sel.length < m then
      match fuel with
      | 0 => none
      | fuel' + 1 =>
        if regContains reg fd then selectLoop reg m fuel' rest (sel ++ [fd])
        else selectLoop reg m fuel' (fd :: rest) sel
    else some (fd :: rest, sel)

/-- Activation of the selected fds (lines 120-127): for each fd in order,
  push onto the active queue, delete its flow from the kernel map if it is
  still registered (`visit`), and trigger an ACK. -/
def activateAll : List Int → RmState → RmState × List Event
  | [], s => (s, [])
  | fd :: rest, s =>
    let s1 : RmState := { s with active_fds_queue := s.active_fds_queue ++ [fd] }
    let step : RmState × List Event :=
      match regLookup s1.fd_to_flow fd with
      | some fl =>
        ({ s1 with flow_to_rwnd := kmapDelete s1.flow_to_rwnd fl },
         [Event.kdelete fl, Event.ack fd])
      | none => (s1, [Event.ack fd])
    let rec_ : RmState × List Event := activateAll rest step.1
    (rec_.1, step.2 ++ rec_.2)

/-- Demotion of the previously active fds (lines 134-144): `n` times, pop the
  front of the active queue, push it onto the paused queue, upsert its flow
  to zero in the kernel map if it is still registered (`visit`), and trigger
  an ACK.  (In the C++ loop `n = num_prev_active` never exceeds the queue
  size; an empty queue is modelled as a no-op iteration.) -/
def demoteN : Nat → RmState → RmState × List Event
  | 0, s => (s, [])
  | n + 1, s =>
    match s.active_fds_queue with
    | [] => (s, [])
    | fd :: rest =>
      let s1 : RmState :=
        { s with active_fds_queue := rest
                 paused_fds_queue := s.paused_fds_queue ++ [fd] }
      let step : RmState × List Event :=
        match regLookup s1.fd_to_flow fd with
        | some fl =>
          ({ s1 with flow_to_rwnd := kmapUpsert s1.flow_to_rwnd fl 0 },
           [Event.upsert fl 0, Event.ack fd])
        | none => (s1, [Event.ack fd])
      let rec_ : RmState × List Event := demoteN n step.1
      (rec_.1, step.2 ++ rec_.2)

/-- The locked classification body of one scheduler cycle (lines 101-148):
  run the paused-queue scan, record `num_prev_active`, activate the selected
  fds, then demote `num_prev_active` fds from the front of the active queue.
  `none` reports that the scan spins forever (it makes no progress once its
  fuel — one unit per queue element, enough for every terminating scan — is
  exhausted). -/
def schedClassify (m : Nat) (s : RmState) : Option (RmState × List Event) :=
  match selectLoop s.fd_to_flow m s.paused_fds_queue.length s.paused_fds_queue [] with
  | none => none
  | some (q', newActive) =>
    let s1 : RmState := { s with paused_fds_queue := q' }
    let numPrevActive := s1.active_fds_queue.length
    let a := activateAll newActive s1
    let d := demoteN numPrevActive a.1
    some (d.1, a.2 ++ d.2)

/-- One iteration of the `thread_func` scheduler loop, as observable outside
  the lock.  If the configuration is invalid the thread exited before the
  loop (lines 71-75), so an epoch changes nothing; if `setup` is not done or
  there is nothing to rotate, the cycle is skipped (lines 87-98); otherwise
  the classification body runs under the lock. -/
def schedCycle (cfg : Config) (s : RmState) : Option (RmState × List Event) :=
  if cfg.max_active_flows = 0 ∨ cfg.epoch_us = 0 then some (s, [])
  else if !s.setup then some (s, [])
  else if s.active_fds_queue.length < cfg.max_active_flows ∧
      s.paused_fds_queue.length = 0 then some (s, [])
  else schedClassify cfg.max_active_flows s

/-- Runs `n` consecutive scheduler epochs (event traces concatenated). -/
def schedEpochs (cfg : Config) : Nat → RmState → Option (RmState × List Event)
  | 0, s => some (s, [])
  | n + 1, s =>
    match schedCycle cfg s with
    | none => none
    | some (s1, ev) =>
      match schedEpochs cfg n s1 with
      | none => none
      | some (s2, evs) => some (s2, ev ++ evs)

/-- Oracle results of the external calls made by the intercepted `accept`
  (lines 158-279), in program order. -/
structure AcceptEnv where
  /-- whether `dlsym` found the real accept symbol -/
  dlsym_ok : Bool
  /-- return value of the real `accept` (`-1` on failure) -/
  real_fd : Int
  /-- whether the address family check fails (unmanaged passthrough) -/
  family_mismatch : Bool
  /-- whether the BPF skeleton open-and-load returned a non-NULL skeleton -/
  open_ok : Bool
  /-- whether `setsockopt(TCP_CONGESTION, RM_BPF_CUBIC)` succeeded -/
  setsockopt_ok : Bool
  /-- whether `getsockopt(TCP_CONGESTION)` succeeded -/
  getsockopt_ok : Bool
  /-- the read-back CCA string equals `RM_BPF_CUBIC` -/
  cca_matches : Bool
  /-- whether `getsockname` succeeded -/
  getsockname_ok : Bool
  /-- whether `getpeername` succeeded -/
  getpeername_ok : Bool
  /-- the four-tuple assembled from the introspected addresses -/
  flow : RmFlow
deriving DecidableEq, Repr

/-- Result of one intercepted entry point: caller-visible return value, the
  global state afterwards, and the kernel/socket side effects performed. -/
structure CallResult where
  ret : Int
  st : RmState
  evs : List Event
deriving DecidableEq, Repr

/-- The part of the intercepted `accept` after the BPF setup block
  (lines 210-279): the iperf3 first-flow exemption, CCA install and
  read-back verification, four-tuple introspection, registration, and
  locked classification into the active or paused queue.  `s1` is the state
  after the setup block and `ev` the events it produced. -/
def acceptAfterSetup (cfg : Config) (env : AcceptEnv) (s1 : RmState)
    (ev : List Event) : CallResult :=
  if s1.fd_to_flow.length = 0 ∧ !s1.skipped_first then
    ⟨env.real_fd, { s1 with skipped_first := true }, ev⟩
  else if !env.setsockopt_ok then ⟨env.real_fd, s1, ev⟩
  else if !env.getsockopt_ok then ⟨env.real_fd, s1, ev⟩
  else if !env.cca_matches then ⟨env.real_fd, s1, ev⟩
  else if !env.getsockname_ok then ⟨-1, s1, ev⟩
  else if !env.getpeername_ok then ⟨-1, s1, ev⟩
  else
    let s2 : RmState :=
      { s1 with fd_to_flow := regInsert s1.fd_to_flow env.real_fd env.flow }
    if s2.active_fds_queue.length < cfg.max_active_flows then
      ⟨env.real_fd,
       { s2 with active_fds_queue := s2.active_fds_queue ++ [env.real_fd] },
       ev⟩
    else
      ⟨env.real_fd,
       { s2 with paused_fds_queue := s2.paused_fds_queue ++ [env.real_fd]
                 flow_to_rwnd := kmapUpsert s2.flow_to_rwnd env.flow 0 },
       ev ++ [Event.upsert env.flow 0]⟩

/-- The intercepted `accept` (lines 158-279), translated step by step:
  configuration check, `dlsym`, the real `accept`, the address-family
  passthrough, the one-time BPF setup block (lines 186-205, attempted
  whenever `setup` is still false; on failure the call returns the new fd
  unregistered), then `acceptAfterSetup`. -/
def acceptCall (cfg : Config) (env : AcceptEnv) (s : RmState) : CallResult :=
  if cfg.max_active_flows = 0 ∨ cfg.epoch_us = 0 then ⟨-1, s, []⟩
  else if !env.dlsym_ok then ⟨-1, s, []⟩
  else if env.real_fd = -1 then ⟨env.real_fd, s, []⟩
  else if env.family_mismatch then ⟨env.real_fd, s, []⟩
  else if !s.setup then
    if env.open_ok then
      acceptAfterSetup cfg env { s with setup := true } [Event.openAttempt]
    else ⟨env.real_fd, s, [Event.openAttempt]⟩
  else acceptAfterSetup cfg env s []

/-- Oracle results of the external calls made by the intercepted `close`
  (lines 283-307). -/
structure CloseEnv where
  /-- whether `dlsym` found the real close symbol -/
  dlsym_ok : Bool
  /-- return value of the real `close` (`-1` on failure) -/
  real_ret : Int
deriving DecidableEq, Repr

/-- The intercepted `close` (lines 283-307): delegate to the real `close`;
  on its success, `visit` the registry entry to delete the flow from the
  kernel map, then `erase` the fd from the registry. -/
def closeCall (cenv : CloseEnv) (fd : Int) (s : RmState) : CallResult :=
  if !cenv.dlsym_ok then ⟨-1, s, []⟩
  else if cenv.real_ret = -1 then ⟨cenv.real_ret, s, []⟩
  else
    match regLookup s.fd_to_flow fd with
    | some fl =>
      ⟨cenv.real_ret,
       { s with fd_to_flow := regErase s.fd_to_flow fd
                flow_to_rwnd := kmapDelete s.flow_to_rwnd fl },
       [Event.kdelete fl]⟩
    | none =>
      ⟨cenv.real_ret, { s with fd_to_flow := regErase s.fd_to_flow fd }, []⟩

/-- One observable operation on the shared state: an intercepted `accept`,
  an intercepted `close`, or one scheduler epoch. -/
inductive Op where
  | acc (env : AcceptEnv)
  | cls (cenv : CloseEnv) (fd : Int)
  | sched
deriving Repr

/-- Run one operation; `none` when the scheduler cycle spins forever. -/
def runOp (cfg : Config) (op : Op) (s : RmState) : Option RmState :=
  match op with
  | Op.acc env => some (acceptCall cfg env s).st
  | Op.cls cenv fd => some (closeCall cenv fd s).st
  | Op.sched =>
    match schedCycle cfg s with
    | none => none
    | some (s1, _) => some s1

/-- Run a sequence of interleaved operations from a state. -/
def runOps (cfg : Config) : List Op → RmState → Option RmState
  | [], s => some s
  | op :: rest, s =>
    match runOp cfg op s with
    | none => none
    | some s1 => runOps cfg rest s1

/-- The events one activated fd produces (kernel delete when registered,
  then the ACK trigger), as a function of the registry. -/
def actEvs (reg : List (Int × RmFlow)) (fd : Int) : List Event :=
  match regLookup reg fd with
  | some fl => [Event.kdelete fl, Event.ack fd]
  | none => [Event.ack fd]

/-- The events one demoted fd produces (kernel upsert-to-zero when
  registered, then the ACK trigger), as a function of the registry. -/
def demoEvs (reg : List (Int × RmFlow)) (fd : Int) : List Event :=
  match regLookup reg fd with
  | some fl => [Event.upsert fl 0, Event.ack fd]
  | none => [Event.ack fd]

/-- Sample flows used for concrete executions. -/
def flowA : RmFlow := ⟨167772674, 167772929, 5201, 40001⟩

def flowB : RmFlow := ⟨167772674, 167772929, 5201, 40002⟩

def flowC : RmFlow := ⟨167772674, 167772929, 5201, 40003⟩

/-- Concrete state for the demotion-count counterexample: capacity 2 reached
  by fds 1 and 2, fd 3 paused, all three registered (the spec's Scenario-B
  shape). -/
def stateAB_C : RmState :=
  { setup := true
    skipped_first := true
    active_fds_queue := [1, 2]
    paused_fds_queue := [3]
    fd_to_flow := [(1, flowA), (2, flowB), (3, flowC)]
    flow_to_rwnd := [(flowC, 0)] }

/-- A fully healthy oracle for one intercepted `accept` returning fd 4. -/
def envOk4 : AcceptEnv :=
  { dlsym_ok := true
    real_fd := 4
    family_mismatch := false
    open_ok := true
    setsockopt_ok := true
    getsockopt_ok := true
    cca_matches := true
    getsockname_ok := true
    getpeername_ok := true
    flow := flowA }

/-- A valid configuration: capacity 2, epoch 10000 µs. -/
def cfgOk : Config := ⟨2, 10000⟩

/-- A healthy oracle for one intercepted `close` (real close returns 0). -/
def cenvOk : CloseEnv := ⟨true, 0⟩

/-- Oracle in which `setsockopt(TCP_CONGESTION)` fails. -/
def envCCAfail : AcceptEnv := { envOk4 with setsockopt_ok := false }

/-- Oracle in which the BPF skeleton open fails (fd 4 accepted). -/
def envOpenFail4 : AcceptEnv := { envOk4 with open_ok := false }

/-- Oracle in which the BPF skeleton open fails (fd 5 accepted). -/
def envOpenFail5 : AcceptEnv := { envOk4 with open_ok := false, real_fd := 5 }

/-- State after closing fd 2 of `stateAB_C`: fd 2's registry entry is gone
  but its handle still sits in the queues; fd 3 is paused and registered. -/
def stateClosedB : RmState :=
  { setup := true
    skipped_first := true
    active_fds_queue := [1]
    paused_fds_queue := [3]
    fd_to_flow := [(1, flowA)]
    flow_to_rwnd := [] }

/-- A state whose paused queue front (fd 5) is stale: it has no registry
  entry, while registered fd 1 is active. -/
def stateStaleFront : RmState :=
  { setup := true
    skipped_first := true
    active_fds_queue := [1]
    paused_fds_queue := [5]
    fd_to_flow := [(1, flowA)]
    flow_to_rwnd := [] }

/-- The state reached from `stateClosedB` by a healthy `accept` of fd 4. -/
def stateClosedB_afterAccept : RmState :=
  { setup := true
    skipped_first := true
    active_fds_queue := [1, 4]
    paused_fds_queue := [3]
    fd_to_flow := [(1, flowA), (4, flowA)]
    flow_to_rwnd := [] }

/-! ## Registry and kernel-map lemmas -/

theorem regLookup_eq_none_of_not_contains (r : List (Int × RmFlow)) (fd : Int)
    (h : regContains r fd = false) : regLookup r fd = none := by
  unfold regLookup
  have hf : List.find? (fun p => p.1 == fd) r = none := by
    rw [List.find?_eq_none]
    intro p hp hc
    have hany : r.any (fun p => p.1 == fd) = true := List.any_eq_true.mpr ⟨p, hp, hc⟩
    rw [regContains] at h
    rw [h] at hany
    exact Bool.false_ne_true hany
  rw [hf]

theorem regLookup_isSome_of_contains (r : List (Int × RmFlow)) (fd : Int)
    (h : regContains r fd = true) : ∃ fl, regLookup r fd = some fl := by
  simp only [regContains, List.any_eq_true] at h
  obtain ⟨p, hp, hfd⟩ := h
  unfold regLookup
  have : (List.find? (fun p => p.1 == fd) r).isSome := by
    rw [List.find?_isSome]
    exact ⟨p, hp, hfd⟩
  obtain ⟨q, hq⟩ := Option.isSome_iff_exists.mp this
  exact ⟨q.2, by rw [hq]⟩

theorem regErase_of_not_contains (r : List (Int × RmFlow)) (fd : Int)
    (h : regContains r fd = false) : regErase r fd = r := by
  unfold regErase
  rw [List.filter_eq_self]
  intro p hp
  have hne : (p.1 == fd) = false := by
    rcases Bool.eq_false_or_eq_true (p.1 == fd) with hc | hc
    · have hany : r.any (fun p => p.1 == fd) = true :=
        List.any_eq_true.mpr ⟨p, hp, hc⟩
      rw [regContains] at h
      rw [h] at hany
      exact absurd hany Bool.false_ne_true
    · exact hc
  simp [bne, hne]

theorem not_contains_regErase (r : List (Int × RmFlow)) (fd : Int) :
    regContains (regErase r fd) fd = false := by
  rw [Bool.eq_false_iff]
  intro hc
  simp only [regContains, List.any_eq_true, regErase, List.mem_filter] at hc
  obtain ⟨p, ⟨_, hne⟩, heq⟩ := hc
  simp only [bne_iff_ne, ne_eq] at hne
  simp only [beq_iff_eq] at heq
  exact hne heq

theorem regContains_regErase_le (r : List (Int × RmFlow)) (fd fd' : Int)
    (h : regContains (regErase r fd') fd = true) : regContains r fd = true := by
  simp only [regContains, regErase, List.any_eq_true, List.mem_filter] at h ⊢
  obtain ⟨p, ⟨hp, _⟩, hfd⟩ := h
  exact ⟨p, hp, hfd⟩

theorem regContains_regInsert (r : List (Int × RmFlow)) (fd fd' : Int)
    (fl : RmFlow) (h : regContains (regInsert r fd' fl) fd = true) :
    regContains r fd = true ∨ fd = fd' := by
  unfold regInsert at h
  split at h
  · exact Or.inl h
  · simp only [regContains, List.any_eq_true, List.mem_append,
      List.mem_singleton] at h
    obtain ⟨p, hp, hfd⟩ := h
    rcases hp with hp | hp
    · exact Or.inl (by
        simp only [regContains, List.any_eq_true]
        exact ⟨p, hp, hfd⟩)
    · subst hp
      simp only [beq_iff_eq] at hfd
      exact Or.inr hfd.symm

/-! ## selectLoop lemmas -/

/-- Unfolding the scan one step on a nonempty queue with spare capacity. -/
theorem selectLoop_cons (reg : List (Int × RmFlow)) (m fuel : Nat)
    (fd : Int) (rest sel : List Int) (hlen : sel.length < m) :
    selectLoop reg m (fuel + 1) (fd :: rest) sel =
      (if regContains reg fd then selectLoop reg m fuel rest (sel ++ [fd])
       else selectLoop reg m fuel (fd :: rest) sel) := by
  simp [selectLoop, hlen]

/-- On a nonempty queue with the selection already full, the scan stops. -/
theorem selectLoop_full (reg : List (Int × RmFlow)) (m fuel : Nat)
    (fd : Int) (rest sel : List Int) (hlen : ¬sel.length < m) :
    selectLoop reg m fuel (fd :: rest) sel = some (fd :: rest, sel) := by
  cases fuel <;> simp [selectLoop, hlen]

/-- With zero fuel and room to select from a nonempty queue, the scan is cut. -/
theorem selectLoop_zero (reg : List (Int × RmFlow)) (m : Nat)
    (fd : Int) (rest sel : List Int) (hlen : sel.length < m) :
    selectLoop reg m 0 (fd :: rest) sel = none := by
  simp [selectLoop, hlen]

theorem selectLoop_nil (reg : List (Int × RmFlow)) (m fuel : Nat)
    (sel : List Int) : selectLoop reg m fuel [] sel = some ([], sel) := by
  cases fuel <;> simp [selectLoop]

/-- The scan never selects more than `m` handles (starting within budget). -/
theorem selectLoop_length_le (reg : List (Int × RmFlow)) (m : Nat) :
    ∀ fuel q sel q' sel', sel.length ≤ m →
      selectLoop reg m fuel q sel = some (q', sel') → sel'.length ≤ m := by
  intro fuel
  induction fuel with
  | zero =>
    intro q sel q' sel' hle h
    cases q with
    | nil =>
      rw [selectLoop_nil] at h
      cases h
      exact hle
    | cons fd rest =>
      by_cases hlt : sel.length < m
      · rw [selectLoop_zero reg m fd rest sel hlt] at h
        cases h
      · rw [selectLoop_full reg m 0 fd rest sel hlt] at h
        cases h
        exact hle
  | succ fuel ih =>
    intro q sel q' sel' hle h
    cases q with
    | nil =>
      rw [selectLoop_nil] at h
      cases h
      exact hle
    | cons fd rest =>
      by_cases hlt : sel.length < m
      · rw [selectLoop_cons reg m fuel fd rest sel hlt] at h
        by_cases hreg : regContains reg fd = true
        · rw [if_pos hreg] at h
          exact ih rest (sel ++ [fd]) q' sel' (by simp; omega) h
        · rw [if_neg hreg] at h
          exact ih (fd :: rest) sel q' sel' hle h
      · rw [selectLoop_full reg m (fuel + 1) fd rest sel hlt] at h
        cases h
        exact hle

/-- Every handle the scan selects was either already selected or is
  registered: the scan never selects an unregistered handle. -/
theorem selectLoop_mem_sel (reg : List (Int × RmFlow)) (m : Nat) :
    ∀ fuel q sel q' sel' fd, selectLoop reg m fuel q sel = some (q', sel') →
      fd ∈ sel' → fd ∈ sel ∨ regContains reg fd = true := by
  intro fuel
  induction fuel with
  | zero =>
    intro q sel q' sel' fd h hm
    cases q with
    | nil =>
      rw [selectLoop_nil] at h
      cases h
      exact Or.inl hm
    | cons g rest =>
      by_cases hlt : sel.length < m
      · rw [selectLoop_zero reg m g rest sel hlt] at h
        cases h
      · rw [selectLoop_full reg m 0 g rest sel hlt] at h
        cases h
        exact Or.inl hm
  | succ fuel ih =>
    intro q sel q' sel' fd h hm
    cases q with
    | nil =>
      rw [selectLoop_nil] at h
      cases h
      exact Or.inl hm
    | cons g rest =>
      by_cases hlt : sel.length < m
      · rw [selectLoop_cons reg m fuel g rest sel hlt] at h
        by_cases hreg : regContains reg g = true
        · rw [if_pos hreg] at h
          rcases ih rest (sel ++ [g]) q' sel' fd h hm with hin | hr
          · rcases List.mem_append.mp hin with hin | hin
            · exact Or.inl hin
            · simp only [List.mem_singleton] at hin
              exact Or.inr (hin ▸ hreg)
          · exact Or.inr hr
        · rw [if_neg hreg] at h
          exact ih (g :: rest) sel q' sel' fd h hm
      · rw [selectLoop_full reg m (fuel + 1) g rest sel hlt] at h
        cases h
        exact Or.inl hm

/-! ## Activation and demotion lemmas -/

theorem activateAll_active (fds : List Int) :
    ∀ s : RmState, (activateAll fds s).1.active_fds_queue =
      s.active_fds_queue ++ fds := by
  induction fds with
  | nil => intro s; simp [activateAll]
  | cons fd rest ih =>
    intro s
    simp only [activateAll]
    cases hl : regLookup s.fd_to_flow fd <;> simp [hl, ih]

theorem activateAll_paused (fds : List Int) :
    ∀ s : RmState, (activateAll fds s).1.paused_fds_queue =
      s.paused_fds_queue := by
  induction fds with
  | nil => intro s; simp [activateAll]
  | cons fd rest ih =>
    intro s
    simp only [activateAll]
    cases hl : regLookup s.fd_to_flow fd <;> simp [hl, ih]

theorem activateAll_reg (fds : List Int) :
    ∀ s : RmState, (activateAll fds s).1.fd_to_flow = s.fd_to_flow := by
  induction fds with
  | nil => intro s; simp [activateAll]
  | cons fd rest ih =>
    intro s
    simp only [activateAll]
    cases hl : regLookup s.fd_to_flow fd <;> simp [hl, ih]

theorem activateAll_evs (fds : List Int) :
    ∀ s : RmState, (activateAll fds s).2 =
      (fds.map (actEvs s.fd_to_flow)).flatten := by
  induction fds with
  | nil => intro s; simp [activateAll]
  | cons fd rest ih =>
    intro s
    simp only [activateAll, List.map_cons, List.flatten]
    cases hl : regLookup s.fd_to_flow fd <;>
      simp [hl, ih, actEvs]

theorem demoteN_reg (n : Nat) :
    ∀ s : RmState, (demoteN n s).1.fd_to_flow = s.fd_to_flow := by
  induction n with
  | zero => intro s; simp [demoteN]
  | succ n ih =>
    intro s
    simp only [demoteN]
    cases hq : s.active_fds_queue with
    | nil => simp
    | cons fd rest =>
      cases hl : regLookup s.fd_to_flow fd <;> simp [hl, ih]

theorem demoteN_active (n : Nat) :
    ∀ s : RmState, n ≤ s.active_fds_queue.length →
      (demoteN n s).1.active_fds_queue = s.active_fds_queue.drop n := by
  induction n with
  | zero => intro s _; simp [demoteN]
  | succ n ih =>
    intro s hn
    simp only [demoteN]
    cases hq : s.active_fds_queue with
    | nil => rw [hq] at hn; simp at hn
    | cons fd rest =>
      rw [hq] at hn
      simp only [List.length_cons, Nat.succ_le_succ_iff] at hn
      cases hl : regLookup s.fd_to_flow fd with
      | none =>
        simp only [hl, List.drop_succ_cons]
        exact ih _ hn
      | some fl =>
        simp only [hl, List.drop_succ_cons]
        exact ih _ hn

theorem demoteN_paused (n : Nat) :
    ∀ s : RmState, n ≤ s.active_fds_queue.length →
      (demoteN n s).1.paused_fds_queue =
        s.paused_fds_queue ++ s.active_fds_queue.take n := by
  induction n with
  | zero => intro s _; simp [demoteN]
  | succ n ih =>
    intro s hn
    simp only [demoteN]
    cases hq : s.active_fds_queue with
    | nil => rw [hq] at hn; simp at hn
    | cons fd rest =>
      rw [hq] at hn
      simp only [List.length_cons, Nat.succ_le_succ_iff] at hn
      cases hl : regLookup s.fd_to_flow fd with
      | none =>
        simp only [hl, List.take_succ_cons]
        exact ((ih _ hn).trans (by simp))
      | some fl =>
        simp only [hl, List.take_succ_cons]
        exact ((ih _ hn).trans (by simp))

theorem demoteN_evs (n : Nat) :
    ∀ s : RmState, n ≤ s.active_fds_queue.length →
      (demoteN n s).2 =
        ((s.active_fds_queue.take n).map (demoEvs s.fd_to_flow)).flatten := by
  induction n with
  | zero => intro s _; simp [demoteN]
  | succ n ih =>
    intro s hn
    simp only [demoteN]
    cases hq : s.active_fds_queue with
    | nil => rw [hq] at hn; simp at hn
    | cons fd rest =>
      rw [hq] at hn
      simp only [List.length_cons, Nat.succ_le_succ_iff] at hn
      cases hl : regLookup s.fd_to_flow fd with
      | none =>
        simp only [hl, List.take_succ_cons, List.map_cons, List.flatten_cons]
        exact ((congrArg _ (ih _ hn)).trans (by simp [demoEvs, hl]))
      | some fl =>
        simp only [hl, List.take_succ_cons, List.map_cons, List.flatten_cons]
        exact ((congrArg _ (ih _ hn)).trans (by simp [demoEvs, hl]))

/-! ## close-path lemmas -/

/-- A successful `close` of an unregistered fd changes nothing and performs
  no kernel-map operation. -/
theorem closeCall_not_contains (cenv : CloseEnv) (fd : Int) (s : RmState)
    (h : regContains s.fd_to_flow fd = false) :
    (closeCall cenv fd s).st = s ∧ (closeCall cenv fd s).evs = [] := by
  unfold closeCall
  split
  · exact ⟨rfl, rfl⟩
  · split
    · exact ⟨rfl, rfl⟩
    · rw [regLookup_eq_none_of_not_contains s.fd_to_flow fd h]
      refine ⟨?_, rfl⟩
      show ({ s with fd_to_flow := regErase s.fd_to_flow fd } : RmState) = s
      rw [regErase_of_not_contains s.fd_to_flow fd h]

/-- A successful `close` of a registered fd deletes its flow from the
  kernel map and erases its registry entry. -/
theorem closeCall_registered (cenv : CloseEnv) (fd : Int) (s : RmState)
    (fl : RmFlow) (hd : cenv.dlsym_ok = true) (hr : ¬cenv.real_ret = -1)
    (hl : regLookup s.fd_to_flow fd = some fl) :
    closeCall cenv fd s =
      ⟨cenv.real_ret,
       { s with fd_to_flow := regErase s.fd_to_flow fd
                flow_to_rwnd := kmapDelete s.flow_to_rwnd fl },
       [Event.kdelete fl]⟩ := by
  unfold closeCall
  rw [hd]
  simp only [Bool.not_true, Bool.false_eq_true, if_false, if_neg hr, hl]

/-- The intercepted `close` never touches the queues. -/
theorem closeCall_queues (cenv : CloseEnv) (fd : Int) (s : RmState) :
    (closeCall cenv fd s).st.active_fds_queue = s.active_fds_queue ∧
      (closeCall cenv fd s).st.paused_fds_queue = s.paused_fds_queue := by
  unfold closeCall
  split
  · exact ⟨rfl, rfl⟩
  · split
    · exact ⟨rfl, rfl⟩
    · cases hl : regLookup s.fd_to_flow fd <;> simp

/-- The intercepted `close` never adds a registry entry. -/
theorem closeCall_reg_sub (cenv : CloseEnv) (fd fd' : Int) (s : RmState)
    (h : regContains (closeCall cenv fd s).st.fd_to_flow fd' = true) :
    regContains s.fd_to_flow fd' = true := by
  unfold closeCall at h
  split at h
  · exact h
  · split at h
    · exact h
    · cases hl : regLookup s.fd_to_flow fd <;>
        rw [hl] at h <;> simp at h <;>
        exact regContains_regErase_le s.fd_to_flow fd' fd h

/-! ## accept-path lemmas -/

/-- After the setup block, the call either leaves the active queue alone
  or, when there is spare capacity, appends exactly the new fd; and it
  either leaves the registry alone or inserts exactly the new flow. -/
theorem acceptAfterSetup_shape (cfg : Config) (env : AcceptEnv)
    (s1 : RmState) (ev : List Event) :
    ((acceptAfterSetup cfg env s1 ev).st.active_fds_queue
        = s1.active_fds_queue ∨
      ((acceptAfterSetup cfg env s1 ev).st.active_fds_queue
          = s1.active_fds_queue ++ [env.real_fd] ∧
        s1.active_fds_queue.length < cfg.max_active_flows)) ∧
    ((acceptAfterSetup cfg env s1 ev).st.fd_to_flow = s1.fd_to_flow ∨
      (acceptAfterSetup cfg env s1 ev).st.fd_to_flow
        = regInsert s1.fd_to_flow env.real_fd env.flow) ∧
    ((acceptAfterSetup cfg env s1 ev).evs = ev ∨
      (acceptAfterSetup cfg env s1 ev).evs = ev ++ [Event.upsert env.flow 0]) := by
  unfold acceptAfterSetup
  repeat' split
  all_goals try simp_all
  by_cases hc : s1.active_fds_queue.length < cfg.max_active_flows
  · simp_all
  · simp only [if_neg hc]
    simp

/-- Outcome shapes of the whole `accept` interposition: the active queue is
  unchanged or (under spare capacity) gains exactly the new fd; the registry
  is unchanged or gains exactly the new flow; and when setup already
  succeeded the only possible kernel event is the pause upsert (in
  particular no BPF-open attempt). -/
theorem acceptCall_shape (cfg : Config) (env : AcceptEnv) (s : RmState) :
    ((acceptCall cfg env s).st.active_fds_queue = s.active_fds_queue ∨
      ((acceptCall cfg env s).st.active_fds_queue
          = s.active_fds_queue ++ [env.real_fd] ∧
        s.active_fds_queue.length < cfg.max_active_flows)) ∧
    ((acceptCall cfg env s).st.fd_to_flow = s.fd_to_flow ∨
      (acceptCall cfg env s).st.fd_to_flow
        = regInsert s.fd_to_flow env.real_fd env.flow) ∧
    (s.setup = true →
      (acceptCall cfg env s).evs = [] ∨
        (acceptCall cfg env s).evs = [Event.upsert env.flow 0]) := by
  unfold acceptCall
  repeat' split
  · simp
  · simp
  · simp
  · simp
  · have h := acceptAfterSetup_shape cfg env { s with setup := true }
      [Event.openAttempt]
    refine ⟨h.1, h.2.1, fun hs => ?_⟩
    simp_all
  · simp_all
  · have h := acceptAfterSetup_shape cfg env s []
    refine ⟨h.1, h.2.1, fun hs => ?_⟩
    simpa using h.2.2

/-! ## Scheduler-cycle lemmas -/

/-- Full characterisation of a terminating classification body: the new
  active queue is exactly the selected fds, the paused queue is the
  unscanned remainder followed by every pre-existing active fd (all
  `num_prev_active` of them are popped and demoted), the registry is
  untouched, and the event trace is the per-fd activation events followed
  by the per-fd demotion events. -/
theorem schedClassify_spec (m : Nat) (s : RmState) (q' sel : List Int)
    (h : selectLoop s.fd_to_flow m s.paused_fds_queue.length
        s.paused_fds_queue [] = some (q', sel)) :
    ∃ st evs, schedClassify m s = some (st, evs) ∧
      st.active_fds_queue = sel ∧
      st.paused_fds_queue = q' ++ s.active_fds_queue ∧
      st.fd_to_flow = s.fd_to_flow ∧
      evs = (sel.map (actEvs s.fd_to_flow)).flatten ++
        ((s.active_fds_queue.map (demoEvs s.fd_to_flow)).flatten) := by
  unfold schedClassify
  rw [h]
  refine ⟨_, _, rfl, ?_, ?_, ?_, ?_⟩
  · have ha := activateAll_active sel { s with paused_fds_queue := q' }
    have hn : s.active_fds_queue.length ≤
        (activateAll sel { s with paused_fds_queue := q' }).1.active_fds_queue.length := by
      rw [ha]; simp
    rw [demoteN_active _ _ hn, ha]
    simp
  · have ha := activateAll_active sel { s with paused_fds_queue := q' }
    have hp := activateAll_paused sel { s with paused_fds_queue := q' }
    have hn : s.active_fds_queue.length ≤
        (activateAll sel { s with paused_fds_queue := q' }).1.active_fds_queue.length := by
      rw [ha]; simp
    rw [demoteN_paused _ _ hn, ha, hp]
    simp [List.take_left]
  · rw [demoteN_reg, activateAll_reg]
  · have ha := activateAll_active sel { s with paused_fds_queue := q' }
    have hr := activateAll_reg sel { s with paused_fds_queue := q' }
    have hn : s.active_fds_queue.length ≤
        (activateAll sel { s with paused_fds_queue := q' }).1.active_fds_queue.length := by
      rw [ha]; simp
    rw [demoteN_evs _ _ hn, activateAll_evs, ha, hr]
    simp [List.take_left]

/-- A scheduler cycle never changes the registry. -/
theorem schedCycle_reg (cfg : Config) (s : RmState) (st : RmState)
    (evs : List Event) (h : schedCycle cfg s = some (st, evs)) :
    st.fd_to_flow = s.fd_to_flow := by
  unfold schedCycle at h
  split at h
  · cases h; rfl
  · split at h
    · cases h; rfl
    · split at h
      · cases h; rfl
      · unfold schedClassify at h
        cases hsl : selectLoop s.fd_to_flow cfg.max_active_flows
            s.paused_fds_queue.length s.paused_fds_queue [] with
        | none => rw [hsl] at h; cases h
        | some p =>
          obtain ⟨q', sel⟩ := p
          obtain ⟨st2, evs2, he, _, _, hreg, _⟩ :=
            schedClassify_spec cfg.max_active_flows s q' sel hsl
          unfold schedClassify at he
          rw [he] at h
          cases h
          exact hreg

/-- After a terminating scheduler cycle the active queue holds at most
  `max_active_flows` fds (unchanged in the skip branches). -/
theorem schedCycle_active_le (cfg : Config) (s : RmState) (st : RmState)
    (evs : List Event) (h : schedCycle cfg s = some (st, evs)) :
    st.active_fds_queue.length ≤
      max s.active_fds_queue.length cfg.max_active_flows := by
  unfold schedCycle at h
  split at h
  · cases h; exact le_max_left _ _
  · split at h
    · cases h; exact le_max_left _ _
    · split at h
      · cases h; exact le_max_left _ _
      · unfold schedClassify at h
        cases hsl : selectLoop s.fd_to_flow cfg.max_active_flows
            s.paused_fds_queue.length s.paused_fds_queue [] with
        | none => rw [hsl] at h; cases h
        | some p =>
          obtain ⟨q', sel⟩ := p
          obtain ⟨st2, evs2, he, hact, _, _, _⟩ :=
            schedClassify_spec cfg.max_active_flows s q' sel hsl
          unfold schedClassify at he
          rw [he] at h
          cases h
          rw [hact]
          exact le_trans
            (selectLoop_length_le s.fd_to_flow cfg.max_active_flows _ _ _ _ _
              (by simp) hsl)
            (le_max_right _ _)

/-- A handle in the active queue after a terminating scheduler cycle was
  already active or was registered when the cycle began. -/
theorem schedCycle_active_mem (cfg : Config) (s : RmState) (st : RmState)
    (evs : List Event) (fd : Int) (h : schedCycle cfg s = some (st, evs))
    (hm : fd ∈ st.active_fds_queue) :
    fd ∈ s.active_fds_queue ∨ regContains s.fd_to_flow fd = true := by
  unfold schedCycle at h
  split at h
  · cases h; exact Or.inl hm
  · split at h
    · cases h; exact Or.inl hm
    · split at h
      · cases h; exact Or.inl hm
      · unfold schedClassify at h
        cases hsl : selectLoop s.fd_to_flow cfg.max_active_flows
            s.paused_fds_queue.length s.paused_fds_queue [] with
        | none => rw [hsl] at h; cases h
        | some p =>
          obtain ⟨q', sel⟩ := p
          obtain ⟨st2, evs2, he, hact, _, _, _⟩ :=
            schedClassify_spec cfg.max_active_flows s q' sel hsl
          unfold schedClassify at he
          rw [he] at h
          cases h
          rw [hact] at hm
          rcases selectLoop_mem_sel s.fd_to_flow cfg.max_active_flows _ _ _ _ _
              fd hsl hm with hin | hr
          · cases hin
          · exact Or.inr hr

/-- A scheduler cycle in a state where BPF setup has not completed is a
  no-op with no kernel events (the `!setup` guard, line 87). -/
theorem schedCycle_not_setup (cfg : Config) (s : RmState)
    (h : s.setup = false) : schedCycle cfg s = some (s, []) := by
  unfold schedCycle
  split
  · rfl
  · rw [h]
    rfl

/-! ## Trace lemmas -/

/-- The per-step half of the capacity invariant. -/
theorem runOp_active_le (cfg : Config) (op : Op) (s s1 : RmState)
    (h : s.active_fds_queue.length ≤ cfg.max_active_flows)
    (hop : runOp cfg op s = some s1) :
    s1.active_fds_queue.length ≤ cfg.max_active_flows := by
  cases op with
  | acc env =>
    cases hop
    rcases (acceptCall_shape cfg env s).1 with hsame | ⟨hpush, hlt⟩
    · rw [hsame]; exact h
    · rw [hpush]; simp; omega
  | cls cenv fd =>
    cases hop
    rw [(closeCall_queues cenv fd s).1]
    exact h
  | sched =>
    unfold runOp at hop
    cases hs : schedCycle cfg s with
    | none => rw [hs] at hop; cases hop
    | some p =>
      obtain ⟨st, evs⟩ := p
      rw [hs] at hop
      cases hop
      have := schedCycle_active_le cfg s _ _ hs
      omega
  
/-- Along any interleaving of `accept`, `close` and scheduler cycles, the
  active queue never exceeds the configured capacity (observed between
  operations, i.e. outside the lock). -/
theorem runOps_active_le (cfg : Config) :
    ∀ ops (s s' : RmState), s.active_fds_queue.length ≤ cfg.max_active_flows →
      runOps cfg ops s = some s' →
      s'.active_fds_queue.length ≤ cfg.max_active_flows := by
  intro ops
  induction ops with
  | nil =>
    intro s s' h hr
    unfold runOps at hr
    cases hr
    exact h
  | cons op rest ih =>
    intro s s' h hr
    unfold runOps at hr
    cases hop : runOp cfg op s with
    | none => rw [hop] at hr; cases hr
    | some s1 =>
      rw [hop] at hr
      exact ih s1 s' (runOp_active_le cfg op s s1 h hop) hr

/-- The per-step half of the staleness invariant: an unregistered,
  not-active fd stays unregistered and not active across one operation,
  provided the operation is not an `accept` that returns this very fd. -/
theorem runOp_stale (cfg : Config) (fd : Int) (op : Op) (s s1 : RmState)
    (hreg : regContains s.fd_to_flow fd = false)
    (hact : fd ∉ s.active_fds_queue)
    (hop : runOp cfg op s = some s1)
    (hnot : ∀ env, op = Op.acc env → env.real_fd ≠ fd) :
    regContains s1.fd_to_flow fd = false ∧ fd ∉ s1.active_fds_queue := by
  cases op with
  | acc env =>
    cases hop
    have hne := hnot env rfl
    constructor
    · rcases (acceptCall_shape cfg env s).2.1 with hsame | hins
      · rw [hsame]; exact hreg
      · rw [hins]
        rcases Bool.eq_false_or_eq_true
            (regContains (regInsert s.fd_to_flow env.real_fd env.flow) fd) with
          hc | hc
        · rcases regContains_regInsert s.fd_to_flow fd env.real_fd env.flow hc
            with hc2 | hc2
          · rw [hc2] at hreg; cases hreg
          · exact absurd hc2.symm hne
        · exact hc
    · rcases (acceptCall_shape cfg env s).1 with hsame | ⟨hpush, _⟩
      · rw [hsame]; exact hact
      · rw [hpush]
        intro hmem
        rcases List.mem_append.mp hmem with hmem | hmem
        · exact hact hmem
        · simp only [List.mem_singleton] at hmem
          exact hne hmem.symm
  | cls cenv fd2 =>
    cases hop
    constructor
    · rcases Bool.eq_false_or_eq_true
          (regContains (closeCall cenv fd2 s).st.fd_to_flow fd) with hc | hc
      · have := closeCall_reg_sub cenv fd2 fd s hc
        rw [this] at hreg
        cases hreg
      · exact hc
    · rw [(closeCall_queues cenv fd2 s).1]
      exact hact
  | sched =>
    unfold runOp at hop
    cases hs : schedCycle cfg s with
    | none => rw [hs] at hop; cases hop
    | some p =>
      obtain ⟨st, evs⟩ := p
      rw [hs] at hop
      cases hop
      constructor
      · rw [schedCycle_reg cfg s _ _ hs]
        exact hreg
      · intro hmem
        rcases schedCycle_active_mem cfg s _ _ fd hs hmem with hin | hr
        · exact hact hin
        · rw [hr] at hreg; cases hreg

/-- Along any trace that never re-accepts this fd, an unregistered and
  not-active fd stays unregistered and never enters the active queue. -/
theorem runOps_stale (cfg : Config) (fd : Int) :
    ∀ ops (s s' : RmState), regContains s.fd_to_flow fd = false →
      fd ∉ s.active_fds_queue →
      (∀ env, Op.acc env ∈ ops → env.real_fd ≠ fd) →
      runOps cfg ops s = some s' →
      regContains s'.fd_to_flow fd = false ∧ fd ∉ s'.active_fds_queue := by
  intro ops
  induction ops with
  | nil =>
    intro s s' hreg hact _ hr
    unfold runOps at hr
    cases hr
    exact ⟨hreg, hact⟩
  | cons op rest ih =>
    intro s s' hreg hact hnot hr
    unfold runOps at hr
    cases hop : runOp cfg op s with
    | none => rw [hop] at hr; cases hr
    | some s1 =>
      rw [hop] at hr
      obtain ⟨hreg1, hact1⟩ := runOp_stale cfg fd op s s1 hreg hact hop
        (fun env he => hnot env (by rw [he]; exact List.mem_cons_self _ _))
      exact ih s1 s' hreg1 hact1
        (fun env he => hnot env (List.mem_cons_of_mem _ he)) hr

/-! ## Further helper lemmas -/

/-- The scan makes no progress on an unregistered front fd: whatever the
  fuel, it never pops it, never selects it, and never finishes. -/
theorem selectLoop_spin (reg : List (Int × RmFlow)) (m : Nat) (fd : Int)
    (rest sel : List Int) (hreg : regContains reg fd = false)
    (hlen : sel.length < m) :
    ∀ fuel, selectLoop reg m fuel (fd :: rest) sel = none := by
  intro fuel
  induction fuel with
  | zero => exact selectLoop_zero reg m fd rest sel hlen
  | succ fuel ih =>
    rw [selectLoop_cons reg m fuel fd rest sel hlen,
      if_neg (by rw [hreg]; exact Bool.false_ne_true), ih]

/-- On a successful real close, the registry after `close` is exactly the
  erasure of the closed fd. -/
theorem closeCall_success_reg (cenv : CloseEnv) (fd : Int) (s : RmState)
    (hd : cenv.dlsym_ok = true) (hr : ¬cenv.real_ret = -1) :
    (closeCall cenv fd s).st.fd_to_flow = regErase s.fd_to_flow fd := by
  unfold closeCall
  rw [hd]
  simp only [Bool.not_true, Bool.false_eq_true, if_false, if_neg hr]
  cases hl : regLookup s.fd_to_flow fd <;> simp

/-! ## Claim theorems -/

/-- C1: the spec says a stale (unregistered) handle at the front of the
  paused queue is popped, not selected, and not re-queued, and the scan goes
  on to select registered handles up to capacity.  The code disagrees: in
  `stateStaleFront` (fd 5 at the front of the paused queue with no registry
  entry, capacity 1 not yet reached), the scan body never pops fd 5 — it
  re-examines it forever, so for every fuel the scan fails to terminate and
  the classification never completes. -/
theorem claim_C1_stale_front_never_popped :
    (∀ fuel, selectLoop stateStaleFront.fd_to_flow 1 fuel
        stateStaleFront.paused_fds_queue [] = none) ∧
      schedClassify 1 stateStaleFront = none := by
  constructor
  · exact fun fuel =>
      selectLoop_spin stateStaleFront.fd_to_flow 1 5 [] [] (by decide)
        (by decide) fuel
  · unfold schedClassify
    rw [show stateStaleFront.paused_fds_queue = [5] from rfl]
    rw [selectLoop_spin stateStaleFront.fd_to_flow 1 5 [] [] (by decide)
      (by decide) ([5] : List Int).length]

/-- C10: the claim says the paused-queue selection loop terminates for every
  state of the paused queue, registry and selection count.  It does not:
  with registry `[(1, flowA)]`, capacity 1, and paused queue `[7, 1]` whose
  front fd 7 is unregistered, the loop spins on fd 7 without consuming it,
  so no amount of fuel makes it return. -/
theorem claim_C10_select_loop_nonterminating :
    ∀ fuel, selectLoop [(1, flowA)] 1 fuel [7, 1] [] = none := fun fuel =>
  selectLoop_spin [(1, flowA)] 1 7 [1] [] (by decide) (by decide) fuel

/-- C7: with an invalid configuration (capacity or epoch zero), every
  intercepted `accept` returns -1 and changes nothing (no registration, no
  queue or kernel-map effect), and the scheduler performs no classification
  over any number of epochs (the thread exited before its loop). -/
theorem claim_C7_invalid_config_inert (cfg : Config)
    (h : cfg.max_active_flows = 0 ∨ cfg.epoch_us = 0) :
    (∀ env s, acceptCall cfg env s = ⟨-1, s, []⟩) ∧
      (∀ n s, schedEpochs cfg n s = some (s, [])) := by
  constructor
  · intro env s
    unfold acceptCall
    rw [if_pos h]
  · intro n
    induction n with
    | zero => intro s; rfl
    | succ n ih =>
      intro s
      have hc : schedCycle cfg s = some (s, []) := by
        unfold schedCycle
        rw [if_pos h]
      unfold schedEpochs
      simp [hc, ih]

/-- Witness for C7 at the concrete configuration ⟨0, 10000⟩. -/
theorem claim_C7_invalid_config_inert_witness :
    acceptCall ⟨0, 10000⟩ envOk4 initState = ⟨-1, initState, []⟩ ∧
      schedEpochs ⟨0, 10000⟩ 3 initState = some (initState, []) :=
  ⟨(claim_C7_invalid_config_inert ⟨0, 10000⟩ (by decide)).1 envOk4 initState,
   (claim_C7_invalid_config_inert ⟨0, 10000⟩ (by decide)).2 3 initState⟩

/-- C8: a successful `close` of a handle absent from the registry leaves the
  whole state unchanged and performs no kernel-map delete; and after any
  successful close of a handle, a second close of it is a no-op with no
  kernel-map delete (registry removal is idempotent). -/
theorem claim_C8_close_idempotent :
    (∀ cenv fd (s : RmState), regContains s.fd_to_flow fd = false →
      (closeCall cenv fd s).st = s ∧ (closeCall cenv fd s).evs = []) ∧
      (∀ cenv cenv2 fd (s : RmState), cenv.dlsym_ok = true →
        ¬cenv.real_ret = -1 →
        (closeCall cenv2 fd (closeCall cenv fd s).st).st
            = (closeCall cenv fd s).st ∧
          (closeCall cenv2 fd (closeCall cenv fd s).st).evs = []) := by
  constructor
  · exact fun cenv fd s h => closeCall_not_contains cenv fd s h
  · intro cenv cenv2 fd s hd hr
    apply closeCall_not_contains
    rw [closeCall_success_reg cenv fd s hd hr]
    exact not_contains_regErase s.fd_to_flow fd

/-- Witness for C8: closing fd 9 (never registered) in `stateAB_C` changes
  nothing, and re-closing fd 3 after a successful close of it is a no-op. -/
theorem claim_C8_close_idempotent_witness :
    ((closeCall cenvOk 9 stateAB_C).st = stateAB_C ∧
      (closeCall cenvOk 9 stateAB_C).evs = []) ∧
      ((closeCall cenvOk 3 (closeCall cenvOk 3 stateAB_C).st).st
          = (closeCall cenvOk 3 stateAB_C).st ∧
        (closeCall cenvOk 3 (closeCall cenvOk 3 stateAB_C).st).evs = []) :=
  ⟨claim_C8_close_idempotent.1 cenvOk 9 stateAB_C (by decide),
   claim_C8_close_idempotent.2 cenvOk cenvOk 3 stateAB_C (by decide)
     (by decide)⟩

/-- When setup already succeeded and the early guards pass, `accept` is the
  post-setup body with an empty prior event trace. -/
theorem acceptCall_setup_done (cfg : Config) (env : AcceptEnv) (s : RmState)
    (hm : ¬(cfg.max_active_flows = 0 ∨ cfg.epoch_us = 0))
    (hd : env.dlsym_ok = true) (hfd : ¬env.real_fd = -1)
    (hfam : env.family_mismatch = false) (hsetup : s.setup = true) :
    acceptCall cfg env s = acceptAfterSetup cfg env s [] := by
  unfold acceptCall
  rw [if_neg hm, hd, hsetup]
  simp [hfd, hfam]

/-- C2 (counterexample): in `stateAB_C` (capacity 2, active = [1, 2], paused
  = [3], all registered), the scan selects N = 1 handle, yet the cycle pops
  both pre-existing active handles and demotes them, leaving active = [3]
  instead of the claim's [2, 3]: the number demoted (2) differs from N. -/
theorem claim_C2_counterexample :
    selectLoop stateAB_C.fd_to_flow 2 stateAB_C.paused_fds_queue.length
        stateAB_C.paused_fds_queue [] = some ([], [3]) ∧
      schedClassify 2 stateAB_C =
        some ({ setup := true
                skipped_first := true
                active_fds_queue := [3]
                paused_fds_queue := [1, 2]
                fd_to_flow := [(1, flowA), (2, flowB), (3, flowC)]
                flow_to_rwnd := [(flowA, 0), (flowB, 0)] },
              [Event.kdelete flowC, Event.ack 3, Event.upsert flowA 0,
               Event.ack 1, Event.upsert flowB 0, Event.ack 2]) ∧
      ([1, 2] : List Int).length ≠ ([3] : List Int).length ∧
      ([3] : List Int) ≠ [2, 3] := by
  refine ⟨by decide, by decide, by decide, by decide⟩

/-- C2 (amended): when the paused-queue scan terminates with selections
  `sel` and remainder `q'`, the cycle pops ALL of the active queue's
  pre-existing contents — `num_prev_active` handles, not N = `sel.length`
  — pushing each onto the paused queue in FIFO order, applying the
  pause upsert to each still-registered one and triggering an ACK for each;
  the new active queue is exactly `sel`. -/
theorem claim_C2_all_prev_active_demoted (m : Nat) (s : RmState)
    (q' sel : List Int)
    (h : selectLoop s.fd_to_flow m s.paused_fds_queue.length
        s.paused_fds_queue [] = some (q', sel)) :
    ∃ st evs, schedClassify m s = some (st, evs) ∧
      st.active_fds_queue = sel ∧
      st.paused_fds_queue = q' ++ s.active_fds_queue ∧
      evs = (sel.map (actEvs s.fd_to_flow)).flatten ++
        (s.active_fds_queue.map (demoEvs s.fd_to_flow)).flatten := by
  obtain ⟨st, evs, h1, h2, h3, _, h5⟩ := schedClassify_spec m s q' sel h
  exact ⟨st, evs, h1, h2, h3, h5⟩

/-- Witness for the amended C2 at `stateAB_C`. -/
theorem claim_C2_all_prev_active_demoted_witness :
    ∃ st evs, schedClassify 2 stateAB_C = some (st, evs) ∧
      st.active_fds_queue = [3] ∧
      st.paused_fds_queue = [] ++ stateAB_C.active_fds_queue ∧
      evs = (([3] : List Int).map (actEvs stateAB_C.fd_to_flow)).flatten ++
        (stateAB_C.active_fds_queue.map (demoEvs stateAB_C.fd_to_flow)).flatten :=
  claim_C2_all_prev_active_demoted 2 stateAB_C [] [3] (by decide)

/-- C3 (counterexample): in `stateClosedB` with a healthy accept oracle for
  fd 4 except that `setsockopt(TCP_CONGESTION)` fails, the intercepted
  `accept` returns the new handle 4 — not failure — and registers nothing
  (the state is unchanged). -/
theorem claim_C3_counterexample :
    (acceptCall cfgOk envCCAfail stateClosedB).ret = 4 ∧
      ¬((4 : Int) = -1) ∧
      (acceptCall cfgOk envCCAfail stateClosedB).st = stateClosedB := by
  refine ⟨by decide, by decide, by decide⟩

/-- C3 (amended): when the underlying accept succeeded, setup is done and
  the first-flow exemption does not apply, a failure to install or verify
  the congestion-control algorithm (`setsockopt` fails, `getsockopt` fails,
  or the read-back name differs) makes the call return the NEW HANDLE with
  the connection left unmanaged: nothing is registered, no queue or
  kernel-map change, no events. -/
theorem claim_C3_cca_failure_returns_handle (cfg : Config) (env : AcceptEnv)
    (s : RmState) (hm : ¬(cfg.max_active_flows = 0 ∨ cfg.epoch_us = 0))
    (hd : env.dlsym_ok = true) (hfd : ¬env.real_fd = -1)
    (hfam : env.family_mismatch = false) (hsetup : s.setup = true)
    (hskip : ¬(s.fd_to_flow.length = 0 ∧ s.skipped_first = false))
    (hcca : env.setsockopt_ok = false ∨ env.getsockopt_ok = false ∨
      env.cca_matches = false) :
    acceptCall cfg env s = ⟨env.real_fd, s, []⟩ := by
  rw [acceptCall_setup_done cfg env s hm hd hfd hfam hsetup]
  unfold acceptAfterSetup
  rw [if_neg (by simpa using hskip)]
  rcases hcca with h | h | h
  · simp [h]
  · by_cases h1 : env.setsockopt_ok <;> simp [h1, h]
  · by_cases h1 : env.setsockopt_ok <;> by_cases h2 : env.getsockopt_ok <;>
      simp [h1, h2, h]

/-- Witness for the amended C3: setsockopt failure on accepting fd 4. -/
theorem claim_C3_cca_failure_returns_handle_witness :
    acceptCall cfgOk envCCAfail stateClosedB = ⟨4, stateClosedB, []⟩ :=
  claim_C3_cca_failure_returns_handle cfgOk envCCAfail stateClosedB
    (by decide) rfl (by decide) rfl rfl (by decide) (Or.inl rfl)

/-- C5: an `accept` that reaches registration (config valid, real accept
  succeeded, AF_INET, setup done, exemption not taken, CCA and address
  introspection all fine) inserts the flow into the registry and then,
  under the lock: with spare capacity the new fd is pushed onto the active
  queue with no kernel-map write; otherwise it is pushed onto the paused
  queue and pause(flow) upserts the flow to zero in the kernel map. -/
theorem claim_C5_register_then_classify (cfg : Config) (env : AcceptEnv)
    (s : RmState) (hm : ¬(cfg.max_active_flows = 0 ∨ cfg.epoch_us = 0))
    (hd : env.dlsym_ok = true) (hfd : ¬env.real_fd = -1)
    (hfam : env.family_mismatch = false) (hsetup : s.setup = true)
    (hskip : ¬(s.fd_to_flow.length = 0 ∧ s.skipped_first = false))
    (h1 : env.setsockopt_ok = true) (h2 : env.getsockopt_ok = true)
    (h3 : env.cca_matches = true) (h4 : env.getsockname_ok = true)
    (h5 : env.getpeername_ok = true) :
    (s.active_fds_queue.length < cfg.max_active_flows →
      acceptCall cfg env s =
        ⟨env.real_fd,
         { s with
             fd_to_flow := regInsert s.fd_to_flow env.real_fd env.flow
             active_fds_queue := s.active_fds_queue ++ [env.real_fd] },
         []⟩) ∧
      (¬s.active_fds_queue.length < cfg.max_active_flows →
        acceptCall cfg env s =
          ⟨env.real_fd,
           { s with
               fd_to_flow := regInsert s.fd_to_flow env.real_fd env.flow
               paused_fds_queue := s.paused_fds_queue ++ [env.real_fd]
               flow_to_rwnd := kmapUpsert s.flow_to_rwnd env.flow 0 },
           [Event.upsert env.flow 0]⟩) := by
  rw [acceptCall_setup_done cfg env s hm hd hfd hfam hsetup]
  unfold acceptAfterSetup
  rw [if_neg (by simpa using hskip)]
  simp only [h1, h2, h3, h4, h5, Bool.not_true, Bool.false_eq_true, if_false]
  constructor
  · intro hc
    rw [if_pos hc]
  · intro hc
    rw [if_neg hc]
    simp

/-- Witness for C5: accepting fd 4 in `stateClosedB` (one active slot
  free) registers it and pushes it onto the active queue. -/
theorem claim_C5_register_then_classify_witness :
    acceptCall cfgOk envOk4 stateClosedB =
      ⟨4,
       { stateClosedB with
           fd_to_flow := regInsert stateClosedB.fd_to_flow 4 flowA
           active_fds_queue := stateClosedB.active_fds_queue ++ [4] },
       []⟩ :=
  (claim_C5_register_then_classify cfgOk envOk4 stateClosedB
    (by decide) rfl (by decide) rfl rfl (by decide)
    rfl rfl rfl rfl rfl).1 (by decide)

/-- C4: starting from process start, after any interleaving of intercepted
  accepts, intercepted closes and (terminating) scheduler cycles, the active
  queue observed outside the lock never exceeds twice the configured
  capacity (in fact it never exceeds the capacity itself between
  operations). -/
theorem claim_C4_active_queue_bounded (cfg : Config) (ops : List Op)
    (s' : RmState) (h : runOps cfg ops initState = some s') :
    s'.active_fds_queue.length ≤ 2 * cfg.max_active_flows := by
  have h2 := runOps_active_le cfg ops initState s' (by simp [initState]) h
  omega

/-- Witness for C4 with one accept from the initial state. -/
theorem claim_C4_active_queue_bounded_witness :
    (⟨true, true, [], [], [], []⟩ : RmState).active_fds_queue.length ≤
      2 * cfgOk.max_active_flows :=
  claim_C4_active_queue_bounded cfgOk [Op.acc envOk4]
    ⟨true, true, [], [], [], []⟩ (by decide)

/-- C6: a successful close of a registered handle deletes its flow from the
  kernel map and erases its registry entry; a paused-queue scan never
  selects an unregistered handle; and along any later trace that does not
  accept the same fd again, the handle stays unregistered and is never
  pushed into the active queue (so no scheduler cycle ever activates it,
  even while a stale reference sits in a queue). -/
theorem claim_C6_closed_handle_never_reactivated (fd : Int) :
    (∀ cenv (s : RmState) fl, cenv.dlsym_ok = true → ¬cenv.real_ret = -1 →
      regLookup s.fd_to_flow fd = some fl →
      closeCall cenv fd s =
        ⟨cenv.real_ret,
         { s with fd_to_flow := regErase s.fd_to_flow fd
                  flow_to_rwnd := kmapDelete s.flow_to_rwnd fl },
         [Event.kdelete fl]⟩) ∧
      (∀ reg m fuel q q' sel, regContains reg fd = false →
        selectLoop reg m fuel q [] = some (q', sel) → fd ∉ sel) ∧
      (∀ cfg ops (s s' : RmState), regContains s.fd_to_flow fd = false →
        fd ∉ s.active_fds_queue →
        (∀ env, Op.acc env ∈ ops → env.real_fd ≠ fd) →
        runOps cfg ops s = some s' →
        regContains s'.fd_to_flow fd = false ∧
          fd ∉ s'.active_fds_queue) := by
  refine ⟨?_, ?_, ?_⟩
  · exact fun cenv s fl hd hr hl => closeCall_registered cenv fd s fl hd hr hl
  · intro reg m fuel q q' sel hreg hsl hmem
    rcases selectLoop_mem_sel reg m fuel q [] q' sel fd hsl hmem with h | h
    · cases h
    · rw [h] at hreg; cases hreg
  · exact fun cfg ops s s' hreg hact hnot hr =>
      runOps_stale cfg fd ops s s' hreg hact hnot hr

/-- Witness for C6 at fd 3: closing it in `stateAB_C`, a scan over a queue
  not containing it, and a later accept of fd 4 from `stateClosedB`. -/
theorem claim_C6_closed_handle_never_reactivated_witness :
    closeCall cenvOk 3 stateAB_C =
      ⟨0,
       { stateAB_C with
           fd_to_flow := regErase stateAB_C.fd_to_flow 3
           flow_to_rwnd := kmapDelete stateAB_C.flow_to_rwnd flowC },
       [Event.kdelete flowC]⟩ ∧
      (3 : Int) ∉ ([2] : List Int) ∧
      (regContains stateClosedB_afterAccept.fd_to_flow 3 = false ∧
        (3 : Int) ∉ stateClosedB_afterAccept.active_fds_queue) := by
  refine ⟨(claim_C6_closed_handle_never_reactivated 3).1 cenvOk stateAB_C
    flowC rfl (by decide) (by decide), ?_, ?_⟩
  · exact (claim_C6_closed_handle_never_reactivated 3).2.1 [(2, flowB)] 1 1
      [2] [] [2] (by decide) (by decide)
  · exact (claim_C6_closed_handle_never_reactivated 3).2.2 cfgOk
      [Op.acc envOk4] stateClosedB stateClosedB_afterAccept (by decide)
      (by decide) (by intro env he; simp at he; subst he; decide) (by decide)

/-- C9 (counterexample): two consecutive accepts during which the BPF
  skeleton open fails each perform the open — it runs twice in one process,
  refuting "at most once per process". -/
theorem claim_C9_counterexample :
    ((acceptCall cfgOk envOpenFail4 initState).evs ++
        (acceptCall cfgOk envOpenFail5
          (acceptCall cfgOk envOpenFail4 initState).st).evs).count
        Event.openAttempt = 2 ∧ ¬((2 : Nat) ≤ 1) := by
  refine ⟨by decide, by decide⟩

/-- C9 (amended): the BPF setup (open) is attempted by EVERY accept that
  reaches the setup block while `setup` is still false, so it can run many
  times per process; each failed-open accept returns the new handle with
  nothing registered and `setup` still false (the flow stays forever
  unmanaged); while `setup` is false a scheduler cycle does nothing and
  touches no kernel state; and once `setup` is true no accept attempts the
  open again. -/
theorem claim_C9_setup_retry_until_success (cfg : Config) (env : AcceptEnv)
    (s : RmState) (hm : ¬(cfg.max_active_flows = 0 ∨ cfg.epoch_us = 0))
    (hd : env.dlsym_ok = true) (hfd : ¬env.real_fd = -1)
    (hfam : env.family_mismatch = false) :
    (s.setup = false → env.open_ok = false →
      acceptCall cfg env s = ⟨env.real_fd, s, [Event.openAttempt]⟩) ∧
      (s.setup = true →
        Event.openAttempt ∉ (acceptCall cfg env s).evs) ∧
      (s.setup = false → schedCycle cfg s = some (s, [])) := by
  refine ⟨?_, ?_, ?_⟩
  · intro hs ho
    unfold acceptCall
    rw [if_neg hm, hd, hs, ho]
    simp [hfd, hfam]
  · intro hs
    rcases (acceptCall_shape cfg env s).2.2 hs with he | he <;> rw [he] <;>
      simp
  · exact fun hs => schedCycle_not_setup cfg s hs

/-- Witness for the amended C9: a failed open on accepting fd 4 from the
  initial state, and an inert scheduler cycle there. -/
theorem claim_C9_setup_retry_until_success_witness :
    acceptCall cfgOk envOpenFail4 initState =
      ⟨4, initState, [Event.openAttempt]⟩ ∧
      schedCycle cfgOk initState = some (initState, []) :=
  ⟨(claim_C9_setup_retry_until_success cfgOk envOpenFail4 initState
      (by decide) rfl (by decide) rfl).1 rfl rfl,
   (claim_C9_setup_retry_until_success cfgOk envOpenFail4 initState
      (by decide) rfl (by decide) rfl).2.2 rfl⟩
